import Mathlib

/-!
# Signal Compiler — verification of the evidence pipeline

Shallow embedding of the evidence verification / evidence indexing /
compile-orchestration logic of `src/main.ts` (with the data shapes of
`src/types.ts`), and proofs of the specification claims about it.

Modelling conventions:
* The model response is untrusted JSON: TypeScript-level union types
  (severity, signal type, drop reason, …) are not enforced at runtime, so
  they are modelled as plain `String`s; fields that the code guards with
  truthiness checks (`pack.signals || []`, `if (sig.evidence)`,
  `claim.source?.…`) are modelled as `Option`s.
* JSON numeric payloads (`page`, `line`, `bbox`, `priority`) are only ever
  copied, never computed with, so they are modelled as `Int`.
* I/O (file reads, the Gemini call, `Promise.race` with the timeout) is
  modelled by passing the outcome of each effect as an explicit argument.
-/

namespace SignalCompiler

/-- `EvidenceSpan` of types.ts: a quote plus its location. -/
structure EvidenceSpan where
  source : String
  quote : String
  page : Option Int := none
  line : Option Int := none
  bbox : Option (List Int) := none
deriving Repr, DecidableEq

/-- `Signal` of types.ts.  `evidence` is `Option`al because `verifyEvidence`
guards it with `!signal.evidence` (the field may be absent in the raw JSON). -/
structure Signal where
  id : String
  type : String
  summary : String
  severity : String
  severity_reason : Option String := none
  owner : String
  value : Option String := none
  unit : Option String := none
  evidence : Option (List EvidenceSpan)
  recommended_check : String
  blocker_for : Option (List String) := none
deriving Repr, DecidableEq

/-- `Drop` of types.ts. -/
structure Drop where
  id : String
  what : String
  reason : String
  detail : String
  would_fix : String
deriving Repr, DecidableEq

/-- `ConflictClaim` of types.ts.  `source` is `Option`al because
`extractEvidenceSpans` reads it as `claim.source?.…`. -/
structure ConflictClaim where
  source : Option String
  value : String
  quote : String
  page : Option Int := none
  definition : Option String := none
  value_date : Option String := none
deriving Repr, DecidableEq

/-- `Conflict` of types.ts.  `claims` is `Option`al because
`extractEvidenceSpans` guards it with `if (conf.claims)`. -/
structure Conflict where
  id : String
  type : String
  topic : String
  claims : Option (List ConflictClaim)
  how_to_resolve : String
  flags : Option (List String) := none
deriving Repr, DecidableEq

/-- `NextCheck` of types.ts.  `slots` is a JSON object, modelled as an
association list. -/
structure NextCheck where
  priority : Int
  owner : String
  template : String
  question : String
  done_when : String
  slots : Option (List (String × String)) := none
deriving Repr, DecidableEq

/-- `GeminiSignalResponse` of types.ts, as it arrives at `verifyEvidence`:
every field may be absent (the code applies `|| []` to each). -/
structure GeminiSignalResponse where
  signals : Option (List Signal)
  drops : Option (List Drop)
  conflicts : Option (List Conflict)
  next_checks : Option (List NextCheck)
deriving Repr, DecidableEq

/-- The value returned by `verifyEvidence`
(`Omit<SignalPack, 'case_id' | 'processed_at' | '_cached'>`). -/
structure VerifiedPack where
  signals : List Signal
  drops : List Drop
  conflicts : List Conflict
  next_checks : List NextCheck
deriving Repr, DecidableEq

/-- `SignalPack` of types.ts (the compile response). -/
structure SignalPack where
  case_id : String
  processed_at : String
  signals : List Signal
  drops : List Drop
  conflicts : List Conflict
  next_checks : List NextCheck
  _cached : Option Bool := none
deriving Repr, DecidableEq

/-! ## Evidence Verifier (`verifyEvidence`, main.ts lines 435–465) -/

/-- The demotion test of main.ts line 443:
`!signal.evidence || signal.evidence.length === 0`. -/
def hasNoEvidence (signal : Signal) : Bool :=
  (signal.evidence.getD []).isEmpty

/-- The Drop pushed at main.ts lines 445–451 for a demoted signal. -/
def missingEvidenceDrop (signal : Signal) : Drop :=
  { id := "D_" ++ signal.id
    what := signal.summary
    reason := "MISSING_EVIDENCE"
    detail := "Signal extracted but no evidence quote provided"
    would_fix := "Manual review required" }

/-- `verifyEvidence` of main.ts lines 435–465: one pass over the candidate
signals, pushing each signal either onto `validSignals` or (as a synthesized
Drop) onto the `drops` array initialised from `pack.drops || []`. -/
def verifyEvidence (pack : GeminiSignalResponse) : VerifiedPack :=
  let signals := pack.signals.getD []
  let drops := pack.drops.getD []
  let conflicts := pack.conflicts.getD []
  let next_checks := pack.next_checks.getD []
  let result := signals.foldl
    (fun (acc : List Signal × List Drop) signal =>
      if hasNoEvidence signal then
        (acc.1, acc.2 ++ [missingEvidenceDrop signal])
      else
        (acc.1 ++ [signal], acc.2))
    ([], drops)
  { signals := result.1
    drops := result.2
    conflicts := conflicts
    next_checks := next_checks }

/-! ### Characterisation of `verifyEvidence` -/

theorem verify_fold_eq (signals : List Signal) (accS : List Signal)
    (accD : List Drop) :
    signals.foldl
      (fun (acc : List Signal × List Drop) signal =>
        if hasNoEvidence signal then
          (acc.1, acc.2 ++ [missingEvidenceDrop signal])
        else
          (acc.1 ++ [signal], acc.2))
      (accS, accD)
    = (accS ++ signals.filter (fun s => !hasNoEvidence s),
       accD ++ (signals.filter hasNoEvidence).map missingEvidenceDrop) := by
  induction signals generalizing accS accD with
  | nil => simp
  | cons s rest ih =>
    by_cases h : hasNoEvidence s
    · simp [h, ih, List.append_assoc]
    · simp [h, ih, List.append_assoc]

theorem verifyEvidence_signals (pack : GeminiSignalResponse) :
    (verifyEvidence pack).signals
      = (pack.signals.getD []).filter (fun s => !hasNoEvidence s) := by
  simp [verifyEvidence, verify_fold_eq]

theorem verifyEvidence_drops (pack : GeminiSignalResponse) :
    (verifyEvidence pack).drops
      = pack.drops.getD []
        ++ ((pack.signals.getD []).filter hasNoEvidence).map
             missingEvidenceDrop := by
  simp [verifyEvidence, verify_fold_eq]

theorem verifyEvidence_conflicts (pack : GeminiSignalResponse) :
    (verifyEvidence pack).conflicts = pack.conflicts.getD [] := by
  simp [verifyEvidence]

theorem verifyEvidence_next_checks (pack : GeminiSignalResponse) :
    (verifyEvidence pack).next_checks = pack.next_checks.getD [] := by
  simp [verifyEvidence]

/-! ## JavaScript `String.prototype.replace` with a string pattern

`source.replace('.pdf', '')` replaces the **first** occurrence of the literal
(case-sensitive) pattern, or returns the string unchanged when the pattern
does not occur.  Modelled on `List Char`. -/

/-- `pat` matches at the head of `s` (character-by-character test performed
at each candidate position of the search). -/
def startsWithList : List Char → List Char → Bool
  | [], _ => true
  | _ :: _, [] => false
  | p :: ps, c :: cs => p == c && startsWithList ps cs

theorem startsWithList_append (pat t : List Char) :
    startsWithList pat (pat ++ t) = true := by
  induction pat with
  | nil => rfl
  | cons p ps ih => simp [startsWithList, ih]

theorem startsWithList_drop : ∀ (pat s : List Char),
    startsWithList pat s = true → s = pat ++ s.drop pat.length
  | [], s, _ => by simp
  | p :: ps, [], h => by simp [startsWithList] at h
  | p :: ps, c :: cs, h => by
    simp only [startsWithList, Bool.and_eq_true, beq_iff_eq] at h
    obtain ⟨rfl, h2⟩ := h
    simpa using startsWithList_drop ps cs h2

/-- Split `s` at the first occurrence of `pat`: `some (p, q)` with
`s = p ++ pat ++ q` and `p` shortest possible, or `none` if `pat` does not
occur in `s`. -/
def findSplit (pat : List Char) : List Char → Option (List Char × List Char)
  | [] => if pat.isEmpty then some ([], []) else none
  | c :: rest =>
    if startsWithList pat (c :: rest) then
      some ([], (c :: rest).drop pat.length)
    else
      match findSplit pat rest with
      | some (p, q) => some (c :: p, q)
      | none => none

/-- JavaScript `s.replace(pat, rep)` for a string pattern: replace the first
occurrence only; no occurrence leaves `s` unchanged. -/
def jsReplaceFirst (s pat rep : String) : String :=
  match findSplit pat.data s.data with
  | some (p, q) => ⟨p ++ rep.data ++ q⟩
  | none => s

theorem findSplit_sound : ∀ (pat s p q : List Char),
    findSplit pat s = some (p, q) → s = p ++ pat ++ q
  | pat, [], p, q, h => by
    cases pat with
    | nil =>
      simp only [findSplit, List.isEmpty_nil, if_true, Option.some.injEq,
        Prod.mk.injEq] at h
      obtain ⟨rfl, rfl⟩ := h
      rfl
    | cons x xs => simp [findSplit] at h
  | pat, c :: rest, p, q, h => by
    by_cases hpre : startsWithList pat (c :: rest) = true
    · simp only [findSplit, hpre, if_true, Option.some.injEq,
        Prod.mk.injEq] at h
      obtain ⟨rfl, rfl⟩ := h
      simpa using startsWithList_drop pat (c :: rest) hpre
    · simp only [findSplit] at h
      rw [if_neg hpre] at h
      cases hrec : findSplit pat rest with
      | none => rw [hrec] at h; cases h
      | some pq =>
        obtain ⟨p0, q0⟩ := pq
        rw [hrec] at h
        simp only [Option.some.injEq, Prod.mk.injEq] at h
        obtain ⟨rfl, rfl⟩ := h
        have ih := findSplit_sound pat rest _ _ hrec
        simp [ih]

theorem findSplit_leftmost : ∀ (pat s p q : List Char),
    findSplit pat s = some (p, q) →
    ∀ p' q', s = p' ++ pat ++ q' → p.length ≤ p'.length
  | pat, [], p, q, h, p', q', h' => by
    cases pat with
    | nil =>
      simp only [findSplit, List.isEmpty_nil, if_true, Option.some.injEq,
        Prod.mk.injEq] at h
      obtain ⟨rfl, rfl⟩ := h
      simp
    | cons x xs => simp [findSplit] at h
  | pat, c :: rest, p, q, h, p', q', h' => by
    by_cases hpre : startsWithList pat (c :: rest) = true
    · simp only [findSplit, hpre, if_true, Option.some.injEq,
        Prod.mk.injEq] at h
      obtain ⟨rfl, rfl⟩ := h
      simp
    · simp only [findSplit] at h
      rw [if_neg hpre] at h
      cases hrec : findSplit pat rest with
      | none => rw [hrec] at h; cases h
      | some pq =>
        obtain ⟨p0, q0⟩ := pq
        rw [hrec] at h
        simp only [Option.some.injEq, Prod.mk.injEq] at h
        obtain ⟨rfl, rfl⟩ := h
        cases p' with
        | nil =>
          exfalso
          apply hpre
          have h2 : c :: rest = pat ++ q' := by simpa using h'
          rw [h2]
          exact startsWithList_append pat q'
        | cons c' p'' =>
          simp only [List.cons_append, List.cons.injEq] at h'
          have ihle := findSplit_leftmost pat rest _ _ hrec p'' q' h'.2
          simpa using Nat.succ_le_succ ihle

theorem findSplit_none_no_occ : ∀ (pat s : List Char),
    findSplit pat s = none → ∀ p q, p ++ pat ++ q ≠ s
  | pat, [], h, p, q => by
    cases pat with
    | nil => simp [findSplit] at h
    | cons x xs => simp
  | pat, c :: rest, h, p, q => by
    by_cases hpre : startsWithList pat (c :: rest) = true
    · simp [findSplit, hpre] at h
    · simp only [findSplit] at h
      rw [if_neg hpre] at h
      intro habs
      cases p with
      | nil =>
        apply hpre
        have h2 : c :: rest = pat ++ q := by simpa using habs.symm
        rw [h2]
        exact startsWithList_append pat q
      | cons c' p'' =>
        simp only [List.cons_append, List.cons.injEq] at habs
        cases hrec : findSplit pat rest with
        | none => exact findSplit_none_no_occ pat rest hrec p'' q habs.2
        | some pq => rw [hrec] at h; cases h

theorem occ_findSplit_isSome (pat s : List Char) (h : pat <:+: s) :
    ∃ p q, findSplit pat s = some (p, q) := by
  obtain ⟨p, q, hpq⟩ := h
  cases hfs : findSplit pat s with
  | none => exact absurd hpq (findSplit_none_no_occ pat s hfs p q)
  | some pq =>
    obtain ⟨p1, q1⟩ := pq
    exact ⟨p1, q1, rfl⟩

/-- If the pattern does not occur in `s`, JS `replace` leaves `s`
unchanged. -/
theorem jsReplaceFirst_no_occ (s pat rep : String)
    (h : ¬ pat.data <:+: s.data) : jsReplaceFirst s pat rep = s := by
  unfold jsReplaceFirst
  cases hfs : findSplit pat.data s.data with
  | none => rfl
  | some pq =>
    exact absurd ⟨pq.1, pq.2, (findSplit_sound pat.data s.data pq.1 pq.2
      (by rw [hfs])).symm⟩ h

/-- If the pattern occurs in `s`, JS `replace` (with an empty replacement)
removes exactly the leftmost occurrence. -/
theorem jsReplaceFirst_occ (s pat : String) (h : pat.data <:+: s.data) :
    ∃ p q, s.data = p ++ pat.data ++ q
      ∧ (jsReplaceFirst s pat "").data = p ++ q
      ∧ ∀ p' q', s.data = p' ++ pat.data ++ q' → p.length ≤ p'.length := by
  obtain ⟨p, q, hfs⟩ := occ_findSplit_isSome pat.data s.data h
  refine ⟨p, q, findSplit_sound _ _ _ _ hfs, ?_,
    findSplit_leftmost _ _ _ _ hfs⟩
  simp [jsReplaceFirst, hfs]

/-! ## Evidence Indexer (`extractEvidenceSpans`, main.ts lines 398–433) -/

/-- An element of `RunEvidencePack['evidence']` (main.ts lines 91–98). -/
structure EvidenceEntry where
  id : String
  doc_id : String
  page : Option Int := none
  bbox : Option (List Int) := none
  line : Option Int := none
  quote : String
deriving Repr, DecidableEq

/-- The entry pushed for a signal evidence span (main.ts lines 405–412),
with the current value of the `evId` counter. -/
def entryOfSpan (evId : Nat) (ev : EvidenceSpan) : EvidenceEntry :=
  { id := "ev_" ++ toString evId
    doc_id := jsReplaceFirst ev.source ".pdf" ""
    page := ev.page
    bbox := ev.bbox
    line := ev.line
    quote := ev.quote }

/-- JS truthiness of `claim.quote` (main.ts line 420). -/
def hasQuote (cl : ConflictClaim) : Bool :=
  cl.quote != ""

/-- `claim.source?.replace('.pdf', '') || 'unknown'` (main.ts line 423). -/
def claimDocId (cl : ConflictClaim) : String :=
  match cl.source with
  | none => "unknown"
  | some s =>
    let r := jsReplaceFirst s ".pdf" ""
    if r == "" then "unknown" else r

/-- The entry pushed for a conflict claim (main.ts lines 421–426). -/
def entryOfClaim (evId : Nat) (cl : ConflictClaim) : EvidenceEntry :=
  { id := "ev_" ++ toString evId
    doc_id := claimDocId cl
    page := cl.page
    quote := cl.quote }

/-- One iteration of the signal-evidence loop: push an entry, bump `evId`. -/
def pushSpan (st : List EvidenceEntry × Nat) (ev : EvidenceSpan) :
    List EvidenceEntry × Nat :=
  (st.1 ++ [entryOfSpan st.2 ev], st.2 + 1)

/-- One iteration of the conflict-claim loop: push only when the claim
carries a (truthy) quote. -/
def pushClaim (st : List EvidenceEntry × Nat) (cl : ConflictClaim) :
    List EvidenceEntry × Nat :=
  if hasQuote cl then (st.1 ++ [entryOfClaim st.2 cl], st.2 + 1) else st

/-- `extractEvidenceSpans` of main.ts lines 398–433: walk the signals
(guarding `if (sig.evidence)`), then the conflicts (guarding
`if (conf.claims)` and `if (claim.quote)`), with a single `evId` counter
starting at 1. -/
def extractEvidenceSpans (pack : VerifiedPack) : List EvidenceEntry :=
  let st0 : List EvidenceEntry × Nat := ([], 1)
  let st1 := pack.signals.foldl
    (fun st sig => (sig.evidence.getD []).foldl pushSpan st) st0
  let st2 := pack.conflicts.foldl
    (fun st conf => (conf.claims.getD []).foldl pushClaim st) st1
  st2.1

/-! ### Spec-side description of the indexer (for the refinement claim C7) -/

/-- Number the elements of a list with consecutive values starting at `n`. -/
def numberFrom (f : Nat → α → β) : Nat → List α → List β
  | _, [] => []
  | n, a :: as => f n a :: numberFrom f (n + 1) as

/-- All evidence spans of the accepted findings, in original order. -/
def acceptedSpans (pack : VerifiedPack) : List EvidenceSpan :=
  pack.signals.flatMap (fun s => s.evidence.getD [])

/-- All conflict claims carrying a non-empty quote, in original order. -/
def quotedClaims (pack : VerifiedPack) : List ConflictClaim :=
  pack.conflicts.flatMap (fun c => (c.claims.getD []).filter hasQuote)

/-- Spec-side definition, following the words of spec §4.2: one Evidence
Entry per evidence span of each accepted Finding in original order, then one
Entry per Conflict claim with a non-empty quote in original order, ids
assigned sequentially from `ev_1` in emission order. -/
def indexEvidenceSpec (pack : VerifiedPack) : List EvidenceEntry :=
  numberFrom entryOfSpan 1 (acceptedSpans pack)
    ++ numberFrom entryOfClaim (1 + (acceptedSpans pack).length)
        (quotedClaims pack)

/-! ### Characterisation of `extractEvidenceSpans` -/

theorem numberFrom_append (f : Nat → α → β) (n : Nat) (xs ys : List α) :
    numberFrom f n (xs ++ ys)
      = numberFrom f n xs ++ numberFrom f (n + xs.length) ys := by
  induction xs generalizing n with
  | nil => simp [numberFrom]
  | cons a as ih =>
    have h : n + 1 + as.length = n + (as.length + 1) := by omega
    simp only [List.cons_append, numberFrom, List.length_cons, List.append_eq]
    rw [ih, h]

theorem span_fold_eq (evs : List EvidenceSpan) (es : List EvidenceEntry)
    (n : Nat) :
    evs.foldl pushSpan (es, n)
      = (es ++ numberFrom entryOfSpan n evs, n + evs.length) := by
  induction evs generalizing es n with
  | nil => simp [numberFrom]
  | cons e rest ih =>
    simp only [List.foldl_cons, pushSpan, ih, numberFrom, List.length_cons,
      Prod.mk.injEq]
    constructor
    · simp
    · omega

theorem claim_fold_eq (cls : List ConflictClaim) (es : List EvidenceEntry)
    (n : Nat) :
    cls.foldl pushClaim (es, n)
      = (es ++ numberFrom entryOfClaim n (cls.filter hasQuote),
         n + (cls.filter hasQuote).length) := by
  induction cls generalizing es n with
  | nil => simp [numberFrom]
  | cons cl rest ih =>
    by_cases h : hasQuote cl
    · simp only [List.foldl_cons, pushClaim, h, if_true, ih,
        List.filter_cons_of_pos h, numberFrom, List.length_cons,
        Prod.mk.injEq]
      constructor
      · simp
      · omega
    · simp [pushClaim, h, ih, List.filter_cons_of_neg h]

theorem sig_fold_eq (sigs : List Signal) (es : List EvidenceEntry) (n : Nat) :
    sigs.foldl (fun st sig => (sig.evidence.getD []).foldl pushSpan st) (es, n)
      = (es ++ numberFrom entryOfSpan n
            (sigs.flatMap (fun s => s.evidence.getD [])),
         n + (sigs.flatMap (fun s => s.evidence.getD [])).length) := by
  induction sigs generalizing es n with
  | nil => simp [numberFrom]
  | cons s rest ih =>
    simp only [List.foldl_cons, span_fold_eq, ih, List.flatMap_cons,
      numberFrom_append, List.length_append, Prod.mk.injEq]
    constructor
    · simp [List.append_assoc]
    · omega

theorem conf_fold_eq (confs : List Conflict) (es : List EvidenceEntry)
    (n : Nat) :
    confs.foldl (fun st conf => (conf.claims.getD []).foldl pushClaim st)
        (es, n)
      = (es ++ numberFrom entryOfClaim n
            (confs.flatMap (fun c => (c.claims.getD []).filter hasQuote)),
         n + (confs.flatMap
                (fun c => (c.claims.getD []).filter hasQuote)).length)
      := by
  induction confs generalizing es n with
  | nil => simp [numberFrom]
  | cons c rest ih =>
    simp only [List.foldl_cons, claim_fold_eq, ih, List.flatMap_cons,
      numberFrom_append, List.length_append, Prod.mk.injEq]
    constructor
    · simp [List.append_assoc]
    · omega

theorem extractEvidenceSpans_eq (pack : VerifiedPack) :
    extractEvidenceSpans pack = indexEvidenceSpec pack := by
  simp [extractEvidenceSpans, sig_fold_eq, conf_fold_eq, indexEvidenceSpec,
    acceptedSpans, quotedClaims]

/-! ## Compile orchestration (`compileSignals` / `liveCompile`,
main.ts lines 255–396)

File reads, the Gemini call and the `Promise.race` timeout are effects; each
is modelled by passing its outcome as an explicit argument. -/

/-- An element of `PackConfig['files']` (main.ts lines 21–25). -/
structure PackFile where
  doc_id : String
  filename : String
deriving Repr, DecidableEq

/-- `PackConfig` of main.ts lines 21–25. -/
structure PackConfig where
  id : String
  name : String
  files : List PackFile
deriving Repr, DecidableEq

/-- The filesystem as seen by `liveCompile`: the project root and the
`demo-artifacts` directory, each a finite map filename ↦ raw bytes (raw
bytes modelled as `String`). -/
structure Fs where
  root : List (String × String)
  artifacts : List (String × String)
deriving Repr, DecidableEq

def lookupFile (dir : List (String × String)) (filename : String) :
    Option String :=
  (dir.find? (fun entry => entry.1 == filename)).map (fun entry => entry.2)

/-- main.ts lines 311–319: try the project root, then `demo-artifacts`;
`none` means both `existsSync` checks failed and the file is skipped. -/
def resolveFile (fs : Fs) (filename : String) : Option String :=
  match lookupFile fs.root filename with
  | some data => some data
  | none => lookupFile fs.artifacts filename

/-- A part of the Gemini request payload (main.ts lines 308, 333–339). -/
inductive Part
  | text (s : String)
  | inlineData (mimeType : String) (data : String)
deriving Repr, DecidableEq

/-- An element of `RunEvidencePack['inputs']` (main.ts lines 80–86). -/
structure DocInput where
  doc_id : String
  filename : String
  sha256 : String
  type : String
  page_count : Option Int := none
deriving Repr, DecidableEq

/-- The run metadata of the run evidence pack (main.ts lines 73–79; the
JSON key is `run_meta`, spelled `runMeta` here because that spelling is a
reserved word in this development's toolchain). -/
structure RunMeta where
  run_id : String
  pack_id : String
  model : String
  config_hash : String
  created_at : String
deriving Repr, DecidableEq

/-- `RunEvidencePack` of main.ts lines 72–99. -/
structure RunEvidencePack where
  runMeta : RunMeta
  inputs : List DocInput
  signals : List Signal
  conflicts : List Conflict
  drops : List Drop
  next_checks : List NextCheck
  evidence : List EvidenceEntry
deriving Repr, DecidableEq

/-- The document-loading loop of main.ts lines 310–340: returns the `inputs`
metadata and the document parts appended after the prompt part.  `sha256`
and `b64` abstract `createHash('sha256')…digest('hex')` and
`data.toString('base64')`. -/
def loadInputs (fs : Fs) (sha256 : String → String) (b64 : String → String) :
    List PackFile → List DocInput × List Part
  | [] => ([], [])
  | file :: rest =>
    match resolveFile fs file.filename with
    | none => loadInputs fs sha256 b64 rest
    | some data =>
      let tail := loadInputs fs sha256 b64 rest
      ({ doc_id := file.doc_id
         filename := file.filename
         sha256 := sha256 data
         type := "pdf" } :: tail.1,
       Part.text ("\n\n--- Document: " ++ file.doc_id ++ " ("
           ++ file.filename ++ ") ---\n")
         :: Part.inlineData "application/pdf" (b64 data) :: tail.2)

/-- `liveCompile` of main.ts lines 302–396.  `md5` abstracts
`createHash('md5')…digest('hex')`; `infer` is the combined outcome of
`model.generateContent` and `JSON.parse` (a malformed response surfaces as
`Except.error "Invalid JSON from Gemini"`); `now` is
`new Date().toISOString()`. -/
def liveCompile (fs : Fs) (sha256 : String → String) (md5 : String → String)
    (b64 : String → String) (promptText : String) (packConfig : PackConfig)
    (infer : Except String GeminiSignalResponse) (now : String) :
    Except String (SignalPack × RunEvidencePack) :=
  let loaded := loadInputs fs sha256 b64 packConfig.files
  let parts := Part.text promptText :: loaded.2
  if parts.length < 3 then
    Except.error "No artifacts found for this pack."
  else
    match infer with
    | Except.error e => Except.error e
    | Except.ok parsed =>
      let verified := verifyEvidence parsed
      let runPack : RunEvidencePack :=
        { runMeta :=
            { run_id := now ++ "_" ++ packConfig.id
              pack_id := packConfig.id
              model := "gemini-2.5-flash"
              config_hash := (md5 promptText).take 8
              created_at := now }
          inputs := loaded.1
          signals := verified.signals
          conflicts := verified.conflicts
          drops := verified.drops
          next_checks := verified.next_checks
          evidence := extractEvidenceSpans verified }
      Except.ok
        ({ case_id := packConfig.id
           processed_at := now
           signals := verified.signals
           drops := verified.drops
           conflicts := verified.conflicts
           next_checks := verified.next_checks
           _cached := none }, runPack)

/-- The parsed content of `runs/<packId>_latest.json` as read back in the
fallback path (main.ts lines 284–296): untrusted JSON again, so every field
may be absent. -/
structure CachedRun where
  runMeta : Option RunMeta
  signals : Option (List Signal)
  conflicts : Option (List Conflict)
  drops : Option (List Drop)
  next_checks : Option (List NextCheck)
deriving Repr, DecidableEq

/-- `compileSignals` of main.ts lines 255–300.  `raceOutcome` is the result
of `Promise.race([liveCompile(...), timeout])` (an expired deadline surfaces
as `Except.error "Gemini timeout"`); `cachedRun` is the parsed content of
`runs/<packId>_latest.json` when that file exists, `none` otherwise.  The
save of the run pack (lines 268–278) swallows its own errors and does not
change the returned value, so it is not modelled. -/
def compileSignals (packConfig : PackConfig)
    (raceOutcome : Except String (SignalPack × RunEvidencePack))
    (cachedRun : Option CachedRun) (now : String) :
    Except String SignalPack :=
  match raceOutcome with
  | Except.ok result => Except.ok result.1
  | Except.error e =>
    match cachedRun with
    | some cached =>
      Except.ok
        { case_id := packConfig.id
          processed_at :=
            match cached.runMeta with
            | some m => if m.created_at == "" then now else m.created_at
            | none => now
          signals := cached.signals.getD []
          conflicts := cached.conflicts.getD []
          drops := cached.drops.getD []
          next_checks := cached.next_checks.getD []
          _cached := some true }
    | none => Except.error e

/-! ## Auxiliary lemmas shared by the claim theorems -/

theorem length_filter_not_add_length_filter (l : List α) (p : α → Bool) :
    (l.filter (fun a => !p a)).length + (l.filter p).length = l.length := by
  induction l with
  | nil => rfl
  | cons a as ih =>
    by_cases h : p a
    · simp only [List.filter_cons, h]
      simp only [Bool.not_true, Bool.false_eq_true, if_false, if_true,
        List.length_cons]
      omega
    · have h' : p a = false := by simpa using h
      simp only [List.filter_cons, h', Bool.not_false, if_true,
        Bool.false_eq_true, if_false, List.length_cons]
      omega

theorem mem_numberFrom (f : Nat → α → β) :
    ∀ (n : Nat) (xs : List α) (a : α), a ∈ xs →
      ∃ k, f k a ∈ numberFrom f n xs
  | _, [], a, h => absurd h (List.not_mem_nil a)
  | n, x :: xs, a, h => by
    rcases List.mem_cons.mp h with rfl | h2
    · exact ⟨n, List.mem_cons_self _ _⟩
    · obtain ⟨k, hk⟩ := mem_numberFrom f (n + 1) xs a h2
      exact ⟨k, List.mem_cons_of_mem _ hk⟩

theorem map_id_numberFrom (mk : Nat → α → EvidenceEntry)
    (hmk : ∀ n a, (mk n a).id = "ev_" ++ toString n) :
    ∀ (n : Nat) (xs : List α),
      (numberFrom mk n xs).map (fun e => e.id)
        = (List.range' n xs.length).map (fun i => "ev_" ++ toString i)
  | _, [] => by simp [numberFrom]
  | n, a :: as => by
    simp [numberFrom, List.range', hmk, map_id_numberFrom mk hmk (n + 1) as]

theorem loadInputs_nil_of_unresolvable (fs : Fs)
    (sha256 b64 : String → String) (files : List PackFile)
    (h : ∀ f ∈ files, resolveFile fs f.filename = none) :
    loadInputs fs sha256 b64 files = ([], []) := by
  induction files with
  | nil => rfl
  | cons f rest ih =>
    have hf := h f (List.mem_cons_self f rest)
    have hrest := ih (fun g hg => h g (List.mem_cons_of_mem f hg))
    simp [loadInputs, hf, hrest]

/-! ## Claim C1 -/

/-- Concrete input for C1: a candidate signal whose single evidence span
carries an empty quote. -/
def c1span : EvidenceSpan := { source := "qa-report-scan", quote := "" }

def c1sig : Signal :=
  { id := "S1"
    type := "quality.nonconformance"
    summary := "QA spec failure reported"
    severity := "high"
    owner := "QA"
    evidence := some [c1span]
    recommended_check := "quality_retest" }

def c1pack : GeminiSignalResponse :=
  { signals := some [c1sig]
    drops := some []
    conflicts := some []
    next_checks := some [] }

/-- C1 counterexample: the Verifier accepts a candidate whose evidence span
has an empty quote, so "every evidence span's quote is a non-empty string"
is false of the accepted set.  (`verifyEvidence` checks only
`!signal.evidence || signal.evidence.length === 0`, never the quotes.) -/
theorem c1_counterexample :
    (verifyEvidence c1pack).signals = [c1sig]
      ∧ ¬ (∀ sig ∈ (verifyEvidence c1pack).signals,
            ∀ ev ∈ sig.evidence.getD [], ev.quote ≠ "") := by
  constructor
  · decide
  · decide

/-- C1 (amended): every Finding in the accepted set is one of the candidates
and has an evidence sequence of length at least 1; a candidate with a
missing or empty evidence list is never accepted.  (Quote non-emptiness is
not checked by the code.) -/
theorem c1_evidence_invariant (pack : GeminiSignalResponse) (sig : Signal)
    (h : sig ∈ (verifyEvidence pack).signals) :
    sig ∈ pack.signals.getD [] ∧ 1 ≤ (sig.evidence.getD []).length := by
  rw [verifyEvidence_signals] at h
  have h1 := List.mem_filter.mp h
  refine ⟨h1.1, ?_⟩
  have h2 : hasNoEvidence sig = false := by simpa using h1.2
  rw [hasNoEvidence] at h2
  cases hev : sig.evidence.getD [] with
  | nil => rw [hev] at h2; simp at h2
  | cons a as => simp [hev]

/-- C1 witness: the amended theorem applied at the concrete input. -/
theorem c1_witness :
    c1sig ∈ c1pack.signals.getD []
      ∧ 1 ≤ (c1sig.evidence.getD []).length :=
  c1_evidence_invariant c1pack c1sig (by decide)

/-! ## Claim C2 -/

/-- C2: the Verifier partitions its candidates without loss — accepted
count plus demoted count equals the candidate count, and the returned drops
are the pre-existing drops followed by exactly one synthesized Drop per
demoted candidate. -/
theorem c2_partition_no_loss (pack : GeminiSignalResponse) :
    (verifyEvidence pack).signals.length
        + ((pack.signals.getD []).filter hasNoEvidence).length
      = (pack.signals.getD []).length
    ∧ (verifyEvidence pack).drops
      = pack.drops.getD []
        ++ ((pack.signals.getD []).filter hasNoEvidence).map
             missingEvidenceDrop := by
  constructor
  · rw [verifyEvidence_signals]
    exact length_filter_not_add_length_filter (pack.signals.getD [])
      hasNoEvidence
  · exact verifyEvidence_drops pack

/-! ## Claim C3 -/

/-- Concrete input for C3: one candidate signal with an empty evidence
list. -/
def c3sig : Signal :=
  { id := "S9"
    type := "liquidity.cash_discrepancy"
    summary := "cash figures differ"
    severity := "high"
    owner := "CFO"
    evidence := some []
    recommended_check := "cash_reconciliation" }

def c3pack : GeminiSignalResponse :=
  { signals := some [c3sig]
    drops := some []
    conflicts := none
    next_checks := none }

/-- C3 counterexample: the synthesized Drop's `would_fix` is the string
"Manual review required" (capital M), not "manual review required" as the
claim states. -/
theorem c3_counterexample :
    (verifyEvidence c3pack).drops
        = [{ id := "D_S9"
             what := "cash figures differ"
             reason := "MISSING_EVIDENCE"
             detail := "Signal extracted but no evidence quote provided"
             would_fix := "Manual review required" }]
      ∧ ¬ (∃ d ∈ (verifyEvidence c3pack).drops,
            d.would_fix = "manual review required") := by
  constructor
  · decide
  · decide

/-- C3 (amended): every demoted candidate yields, in the returned drops, a
Drop with id `"D_" + id`, reason `MISSING_EVIDENCE`, `what` equal to the
finding's summary, and `would_fix` equal to "Manual review required"
(capital M, unlike the claim's "manual review required"). -/
theorem c3_demoted_drop_fields (pack : GeminiSignalResponse) (sig : Signal)
    (h1 : sig ∈ pack.signals.getD []) (h2 : hasNoEvidence sig = true) :
    ({ id := "D_" ++ sig.id
       what := sig.summary
       reason := "MISSING_EVIDENCE"
       detail := "Signal extracted but no evidence quote provided"
       would_fix := "Manual review required" } : Drop)
      ∈ (verifyEvidence pack).drops := by
  rw [verifyEvidence_drops]
  refine List.mem_append_right _ ?_
  exact List.mem_map_of_mem missingEvidenceDrop
    (List.mem_filter.mpr ⟨h1, h2⟩)

/-- C3 witness: the amended theorem applied at the concrete input. -/
theorem c3_witness :
    ({ id := "D_S9"
       what := "cash figures differ"
       reason := "MISSING_EVIDENCE"
       detail := "Signal extracted but no evidence quote provided"
       would_fix := "Manual review required" } : Drop)
      ∈ (verifyEvidence c3pack).drops :=
  c3_demoted_drop_fields c3pack c3sig (by decide) (by decide)

/-! ## Claim C4 -/

/-- Concrete input for C4: one pre-existing candidate Drop and one candidate
signal that will be demoted. -/
def c4predrop : Drop :=
  { id := "D_REF1"
    what := "missing appendix"
    reason := "REFERENCED_NOT_ATTACHED"
    detail := "the email references an appendix that is not attached"
    would_fix := "attach the appendix" }

def c4sig : Signal :=
  { id := "S2"
    type := "ops.inventory_discrepancy"
    summary := "inventory counts differ"
    severity := "medium"
    owner := "Ops"
    evidence := none
    recommended_check := "quantity_verification" }

def c4pack : GeminiSignalResponse :=
  { signals := some [c4sig]
    drops := some [c4predrop]
    conflicts := some []
    next_checks := some [] }

/-- C4 counterexample: with one pre-existing Drop and one demoted Finding,
the returned drops list is `[pre-existing, synthesized]` — the pre-existing
Drop comes **before** the synthesized one, not after as the claim states. -/
theorem c4_counterexample :
    (verifyEvidence c4pack).drops = [c4predrop, missingEvidenceDrop c4sig]
      ∧ (verifyEvidence c4pack).drops
          ≠ [missingEvidenceDrop c4sig, c4predrop] := by
  constructor
  · decide
  · decide

/-- C4 (amended): the returned drops list is the pre-existing candidate
Drops unchanged, followed by (positioned **before**) all synthesized
demotion Drops. -/
theorem c4_pre_drops_first (pack : GeminiSignalResponse) :
    (verifyEvidence pack).drops
      = pack.drops.getD []
        ++ ((pack.signals.getD []).filter hasNoEvidence).map
             missingEvidenceDrop :=
  verifyEvidence_drops pack

/-! ## Claim C5 -/

/-- C5: when live compilation fails and a cached run exists, the response is
the cached run's content (signals, conflicts, drops, next_checks, and its
created_at as processed_at) with `_cached = true` added; when live
compilation fails and no cached run exists, the original error is
propagated unchanged. -/
theorem c5_fallback_correctness (packConfig : PackConfig) (now e : String)
    (cached : CachedRun) (meta : RunMeta) (ss : List Signal)
    (cs : List Conflict) (ds : List Drop) (ns : List NextCheck)
    (h1 : cached.signals = some ss) (h2 : cached.conflicts = some cs)
    (h3 : cached.drops = some ds) (h4 : cached.next_checks = some ns)
    (h5 : cached.runMeta = some meta) (h6 : meta.created_at ≠ "") :
    compileSignals packConfig (Except.error e) (some cached) now
        = Except.ok
            { case_id := packConfig.id
              processed_at := meta.created_at
              signals := ss
              drops := ds
              conflicts := cs
              next_checks := ns
              _cached := some true }
      ∧ compileSignals packConfig (Except.error e) none now
        = Except.error e := by
  constructor
  · simp [compileSignals, h1, h2, h3, h4, h5, h6]
  · rfl

/-- Concrete cached run for the C5 witness. -/
def c5meta : RunMeta :=
  { run_id := "2026-02-01T00:00:00.000Z_agrinova_w04"
    pack_id := "agrinova_w04"
    model := "gemini-2.5-flash"
    config_hash := "ab12cd34"
    created_at := "2026-02-01T00:00:00.000Z" }

def c5cached : CachedRun :=
  { runMeta := some c5meta
    signals := some []
    conflicts := some []
    drops := some []
    next_checks := some [] }

def c5packcfg : PackConfig :=
  { id := "agrinova_w04"
    name := "AgriNova W04 2026 (Original)"
    files := [] }

/-- C5 witness: the theorem applied at a concrete inference failure,
cached run, and empty-cache case. -/
theorem c5_witness :
    compileSignals c5packcfg (Except.error "Gemini timeout")
        (some c5cached) "2026-03-01T00:00:00.000Z"
      = Except.ok
          { case_id := "agrinova_w04"
            processed_at := "2026-02-01T00:00:00.000Z"
            signals := []
            drops := []
            conflicts := []
            next_checks := []
            _cached := some true }
      ∧ compileSignals c5packcfg (Except.error "Gemini timeout") none
          "2026-03-01T00:00:00.000Z"
        = Except.error "Gemini timeout" :=
  c5_fallback_correctness c5packcfg "2026-03-01T00:00:00.000Z"
    "Gemini timeout" c5cached c5meta [] [] [] []
    rfl rfl rfl rfl rfl (by decide)

/-! ## Claim C6 -/

/-- Concrete input for C6: a pack whose single declared file resolves
nowhere, together with a cached run for the same pack. -/
def c6fs : Fs := { root := [], artifacts := [] }

def c6packcfg : PackConfig :=
  { id := "agrinova_w04"
    name := "AgriNova W04 2026 (Original)"
    files := [{ doc_id := "weekly-pack"
                filename := "Demo_Artifact_1_Weekly_Pack_AgriNova_W04_2026.pdf" }] }

def c6cached : CachedRun :=
  { runMeta := none
    signals := some []
    conflicts := some []
    drops := some []
    next_checks := some [] }

/-- C6 counterexample: with zero resolvable documents `liveCompile` does
fail with the no-artifacts error, but when a cached run exists
`compileSignals` catches that error like any other and returns the cached
run tagged `_cached = true` — it does **not** surface the error, refuting
"never falls back to a cached run". -/
theorem c6_counterexample :
    liveCompile c6fs (fun _ => "") (fun _ => "") (fun _ => "") "PROMPT"
        c6packcfg (Except.error "Gemini timeout") "T0"
      = Except.error "No artifacts found for this pack."
      ∧ compileSignals c6packcfg
          (liveCompile c6fs (fun _ => "") (fun _ => "") (fun _ => "")
            "PROMPT" c6packcfg (Except.error "Gemini timeout") "T0")
          (some c6cached) "T0"
        ≠ Except.error "No artifacts found for this pack."
      ∧ compileSignals c6packcfg
          (liveCompile c6fs (fun _ => "") (fun _ => "") (fun _ => "")
            "PROMPT" c6packcfg (Except.error "Gemini timeout") "T0")
          (some c6cached) "T0"
        = Except.ok
            { case_id := "agrinova_w04"
              processed_at := "T0"
              signals := []
              drops := []
              conflicts := []
              next_checks := []
              _cached := some true } := by
  refine ⟨rfl, ?_, rfl⟩
  exact fun h => Except.noConfusion h

/-- C6 (amended): when zero of the pack's declared documents are
resolvable, `liveCompile` fails with the error "No artifacts found for this
pack."; with no cached run this error is propagated to the caller, but when
a cached run record exists the pipeline **does** fall back to it (tagged
`_cached = true`) instead of surfacing the error. -/
theorem c6_no_artifacts (fs : Fs) (sha256 md5 b64 : String → String)
    (promptText now : String) (packConfig : PackConfig)
    (infer : Except String GeminiSignalResponse) (cached : CachedRun)
    (h : ∀ f ∈ packConfig.files, resolveFile fs f.filename = none) :
    liveCompile fs sha256 md5 b64 promptText packConfig infer now
        = Except.error "No artifacts found for this pack."
      ∧ compileSignals packConfig
          (liveCompile fs sha256 md5 b64 promptText packConfig infer now)
          none now
        = Except.error "No artifacts found for this pack."
      ∧ compileSignals packConfig
          (liveCompile fs sha256 md5 b64 promptText packConfig infer now)
          (some cached) now
        = Except.ok
            { case_id := packConfig.id
              processed_at :=
                match cached.runMeta with
                | some m => if m.created_at == "" then now else m.created_at
                | none => now
              signals := cached.signals.getD []
              drops := cached.drops.getD []
              conflicts := cached.conflicts.getD []
              next_checks := cached.next_checks.getD []
              _cached := some true } := by
  have hload := loadInputs_nil_of_unresolvable fs sha256 b64
    packConfig.files h
  have hlive : liveCompile fs sha256 md5 b64 promptText packConfig infer now
      = Except.error "No artifacts found for this pack." := by
    simp [liveCompile, hload]
  refine ⟨hlive, ?_, ?_⟩
  · rw [hlive]; rfl
  · rw [hlive]; rfl

/-- C6 witness: the amended theorem applied at the concrete input. -/
theorem c6_witness :
    liveCompile c6fs (fun _ => "h") (fun _ => "h") (fun _ => "h") "P"
        c6packcfg (Except.ok ⟨none, none, none, none⟩) "T1"
      = Except.error "No artifacts found for this pack."
      ∧ compileSignals c6packcfg
          (liveCompile c6fs (fun _ => "h") (fun _ => "h") (fun _ => "h") "P"
            c6packcfg (Except.ok ⟨none, none, none, none⟩) "T1")
          none "T1"
        = Except.error "No artifacts found for this pack."
      ∧ compileSignals c6packcfg
          (liveCompile c6fs (fun _ => "h") (fun _ => "h") (fun _ => "h") "P"
            c6packcfg (Except.ok ⟨none, none, none, none⟩) "T1")
          (some c6cached) "T1"
        = Except.ok
            { case_id := c6packcfg.id
              processed_at :=
                match c6cached.runMeta with
                | some m => if m.created_at == "" then "T1" else m.created_at
                | none => "T1"
              signals := c6cached.signals.getD []
              drops := c6cached.drops.getD []
              conflicts := c6cached.conflicts.getD []
              next_checks := c6cached.next_checks.getD []
              _cached := some true } :=
  c6_no_artifacts c6fs (fun _ => "h") (fun _ => "h") (fun _ => "h") "P" "T1"
    c6packcfg (Except.ok ⟨none, none, none, none⟩) c6cached (by decide)

/-! ## Claim C7 -/

/-- C7: the Evidence Indexer emits, in order, one Evidence Entry per
evidence span of each accepted Finding (findings in original order), then
one Entry per Conflict claim with a non-empty quote (conflicts in original
order), ids assigned sequentially `ev_1, ev_2, …` in emission order with no
deduplication — stated as an exact characterisation of the output list,
whose entry ids enumerate `ev_1 … ev_total`. -/
theorem c7_index_order (pack : VerifiedPack) :
    extractEvidenceSpans pack
        = numberFrom entryOfSpan 1 (acceptedSpans pack)
          ++ numberFrom entryOfClaim (1 + (acceptedSpans pack).length)
              (quotedClaims pack)
      ∧ (extractEvidenceSpans pack).map (fun e => e.id)
        = (List.range' 1
            ((acceptedSpans pack).length + (quotedClaims pack).length)).map
              (fun i => "ev_" ++ toString i) := by
  refine ⟨extractEvidenceSpans_eq pack, ?_⟩
  rw [extractEvidenceSpans_eq pack, indexEvidenceSpec, List.map_append,
    map_id_numberFrom entryOfSpan (fun _ _ => rfl),
    map_id_numberFrom entryOfClaim (fun _ _ => rfl),
    ← List.map_append]
  have h := List.range'_append 1 (acceptedSpans pack).length
    (quotedClaims pack).length 1
  rw [Nat.one_mul] at h
  rw [h, Nat.add_comm (quotedClaims pack).length (acceptedSpans pack).length]

/-! ## Claim C8 -/

/-- Concrete inputs for C8: spans whose sources end in ".PDF" (upper case)
and contain ".pdf" mid-string. -/
def c8packA : VerifiedPack :=
  { signals := [{ id := "S3"
                  type := "quality.nonconformance"
                  summary := "scan finding"
                  severity := "low"
                  owner := "QA"
                  evidence := some [{ source := "Report.PDF", quote := "q8" }]
                  recommended_check := "quality_retest" }]
    drops := []
    conflicts := []
    next_checks := [] }

def c8packB : VerifiedPack :=
  { signals := [{ id := "S4"
                  type := "quality.nonconformance"
                  summary := "scan finding"
                  severity := "low"
                  owner := "QA"
                  evidence := some [{ source := "a.pdf.b", quote := "q8b" }]
                  recommended_check := "quality_retest" }]
    drops := []
    conflicts := []
    next_checks := [] }

/-- C8 counterexample: a source ending in ".PDF" is **not** stripped (the
replace is case-sensitive), and ".pdf" is removed even mid-string (not only
as a trailing extension). -/
theorem c8_counterexample :
    extractEvidenceSpans c8packA
        = [{ id := "ev_1", doc_id := "Report.PDF", quote := "q8" }]
      ∧ "Report.PDF" ≠ "Report"
      ∧ extractEvidenceSpans c8packB
        = [{ id := "ev_1", doc_id := "a.b", quote := "q8b" }]
      ∧ "a.b" ≠ "a.pdf.b" := by
  refine ⟨?_, by decide, ?_, by decide⟩
  · decide
  · decide

/-- C8 (amended): the entry's doc_id is the span's source with the **first
case-sensitive occurrence of the literal substring ".pdf"** removed,
wherever it occurs; a source with no case-sensitive ".pdf" substring
(including ".PDF"/".Pdf" suffixes and other extensions) is unchanged. -/
theorem c8_doc_id (evId : Nat) (ev : EvidenceSpan) :
    (¬ ".pdf".data <:+: ev.source.data →
        (entryOfSpan evId ev).doc_id = ev.source)
      ∧ (".pdf".data <:+: ev.source.data →
          ∃ p q, ev.source.data = p ++ ".pdf".data ++ q
            ∧ (entryOfSpan evId ev).doc_id.data = p ++ q
            ∧ ∀ p' q', ev.source.data = p' ++ ".pdf".data ++ q' →
                p.length ≤ p'.length) := by
  constructor
  · intro h
    simp [entryOfSpan, jsReplaceFirst_no_occ _ _ _ h]
  · intro h
    simpa [entryOfSpan] using jsReplaceFirst_occ ev.source ".pdf" h

/-- C8 witness: the amended theorem applied at concrete spans, discharging
the no-occurrence hypothesis at "Report.PDF" and the occurrence hypothesis
at "a.pdf". -/
theorem c8_witness :
    (entryOfSpan 1 { source := "Report.PDF", quote := "q" }).doc_id
        = "Report.PDF"
      ∧ ∃ p q, ("a.pdf".data : List Char) = p ++ ".pdf".data ++ q
          ∧ (entryOfSpan 2 { source := "a.pdf", quote := "q" }).doc_id.data
              = p ++ q
          ∧ ∀ p' q', "a.pdf".data = p' ++ ".pdf".data ++ q' →
              p.length ≤ p'.length :=
  ⟨(c8_doc_id 1 { source := "Report.PDF", quote := "q" }).1 (by decide),
   (c8_doc_id 2 { source := "a.pdf", quote := "q" }).2 (by decide)⟩

/-! ## Claim C9 -/

/-- C9: verification returns `conflicts` and `next_checks` unchanged (empty
when the field is missing), and only filters the signals and appends to the
drops: the accepted signals are a sublist of the candidates and the
returned drops extend the candidate drops. -/
theorem c9_frame (pack : GeminiSignalResponse) :
    (verifyEvidence pack).conflicts = pack.conflicts.getD []
      ∧ (verifyEvidence pack).next_checks = pack.next_checks.getD []
      ∧ (verifyEvidence pack).signals.Sublist (pack.signals.getD [])
      ∧ ∃ tail, (verifyEvidence pack).drops = pack.drops.getD [] ++ tail := by
  refine ⟨verifyEvidence_conflicts pack, verifyEvidence_next_checks pack,
    ?_, ?_⟩
  · rw [verifyEvidence_signals]
    exact List.filter_sublist (pack.signals.getD [])
  · exact ⟨_, verifyEvidence_drops pack⟩

/-! ## Claim C10 -/

/-- C10: a Conflict claim with a non-empty quote whose source is missing or
empty still yields an Evidence Entry, with doc_id `"unknown"`. -/
theorem c10_unknown_doc_id (pack : VerifiedPack) (conf : Conflict)
    (cl : ConflictClaim) (h1 : conf ∈ pack.conflicts)
    (h2 : cl ∈ conf.claims.getD []) (h3 : cl.quote ≠ "")
    (h4 : cl.source = none ∨ cl.source = some "") :
    ∃ entry ∈ extractEvidenceSpans pack,
      entry.quote = cl.quote ∧ entry.doc_id = "unknown" := by
  have hq : hasQuote cl = true := by simp [hasQuote, h3]
  have hmem : cl ∈ quotedClaims pack := by
    simp only [quotedClaims, List.mem_flatMap]
    exact ⟨conf, h1, List.mem_filter.mpr ⟨h2, hq⟩⟩
  obtain ⟨k, hk⟩ := mem_numberFrom entryOfClaim
    (1 + (acceptedSpans pack).length) (quotedClaims pack) cl hmem
  refine ⟨entryOfClaim k cl, ?_, rfl, ?_⟩
  · rw [extractEvidenceSpans_eq, indexEvidenceSpec]
    exact List.mem_append_right _ hk
  · rcases h4 with h4 | h4
    · simp [entryOfClaim, claimDocId, h4]
    · simp only [entryOfClaim, claimDocId, h4]
      decide

/-- Concrete input for the C10 witness: a conflict whose single claim has a
quote but no source. -/
def c10claim : ConflictClaim :=
  { source := none
    value := "12.4M"
    quote := "cash position at 12.4" }

def c10conf : Conflict :=
  { id := "C1"
    type := "liquidity.cash_amount"
    topic := "cash position"
    claims := some [c10claim]
    how_to_resolve := "confirm with the bank statement" }

def c10pack : VerifiedPack :=
  { signals := []
    drops := []
    conflicts := [c10conf]
    next_checks := [] }

/-- C10 witness: the theorem applied at the concrete input. -/
theorem c10_witness :
    ∃ entry ∈ extractEvidenceSpans c10pack,
      entry.quote = c10claim.quote ∧ entry.doc_id = "unknown" :=
  c10_unknown_doc_id c10pack c10conf c10claim (by decide) (by decide)
    (by decide) (Or.inl rfl)

end SignalCompiler
